import Mathlib

/-!
Shallow embedding of the `local-ip-address` crate (platform address decoders
for Unix/BSD `getifaddrs`, Linux netlink, and Windows IP Helper), together
with theorems settling the specification claims about it.

Machine integers are modelled as `Nat` with explicit byte arithmetic; raw
kernel memory is modelled as explicit byte lists; fallible code returns
`Except`; code whose C-level behaviour is a null-pointer dereference is given
the explicit outcome `RunResult.crash`.
-/

namespace LocalIp

/-! ## Basic data model: addresses and the error taxonomy (src/error.rs) -/

/-- The four octets of an IPv4 address, as displayed (`a.b.c.d`). -/
structure Ipv4Addr where
  a : Nat
  b : Nat
  c : Nat
  d : Nat
deriving DecidableEq, Repr

/-- `std::net::IpAddr`: a tagged union of an IPv4 address or an IPv6 address
(the latter kept as its sixteen raw octets). -/
inductive IpAddr where
  | v4 (x : Ipv4Addr)
  | v6 (bytes : List Nat)
deriving DecidableEq, Repr

/-- `IpAddr::is_ipv4`. -/
def IpAddr.isV4 : IpAddr → Bool
  | .v4 _ => true
  | .v6 _ => false

/-- `IpAddr::is_ipv6`. -/
def IpAddr.isV6 : IpAddr → Bool
  | .v4 _ => false
  | .v6 _ => true

/-- The crate's error enum, exactly as declared in `src/error.rs`: three
variants — `LocalIpAddressNotFound`, `StrategyError(String)`,
`PlatformNotSupported(String)`. -/
inductive Error where
  | LocalIpAddressNotFound
  | StrategyError (msg : String)
  | PlatformNotSupported (os : String)
deriving DecidableEq, Repr

/-- The kind (constructor) of an error value, used to state taxonomy claims. -/
inductive ErrorKind where
  | notFound
  | strategy
  | platformNotSupported
deriving DecidableEq, Repr

/-- Kind projection for `Error`. -/
def Error.kind : Error → ErrorKind
  | .LocalIpAddressNotFound => .notFound
  | .StrategyError _ => .strategy
  | .PlatformNotSupported _ => .platformNotSupported

/-! ## Byte-order model

The kernel delivers the IPv4 field `sin_addr.s_addr` as four bytes in
network (big-endian) order sitting in memory.  Reading those bytes as a
native `u32` depends on the target's endianness; `u32::swap_bytes` reverses
the byte order; `Ipv4Addr::from(u32)` interprets the integer big-endian. -/

/-- Native byte order of the target CPU. -/
inductive Endianness where
  | little
  | big
deriving DecidableEq, Repr

/-- Byte `i` (0 = least significant) of a machine integer. -/
def byteOf (v i : Nat) : Nat := v / 256 ^ i % 256

/-- Reading four memory bytes `b0 b1 b2 b3` (in increasing address order) as
a native `u32` on the given target. -/
def readNativeU32 : Endianness → Nat → Nat → Nat → Nat → Nat
  | .little, b0, b1, b2, b3 => b0 + b1 * 256 + b2 * 65536 + b3 * 16777216
  | .big, b0, b1, b2, b3 => b3 + b2 * 256 + b1 * 65536 + b0 * 16777216

/-- `u32::swap_bytes`: reverses the byte order of a 32-bit value. -/
def swapBytes32 (v : Nat) : Nat :=
  byteOf v 0 * 16777216 + byteOf v 1 * 65536 + byteOf v 2 * 256 + byteOf v 3

/-- `Ipv4Addr::from(u32)`: the octets are the big-endian bytes of the value. -/
def ipv4FromU32 (v : Nat) : Ipv4Addr :=
  ⟨byteOf v 3, byteOf v 2, byteOf v 1, byteOf v 0⟩

/-- The IPv4 extraction of `src/unix.rs` lines 82-92: build the address from
the native `s_addr` value, and on a little-endian target overwrite it with
the byte-swapped value (`cfg!(target_endian = "little")`). -/
def decodeSinAddr (e : Endianness) (b0 b1 b2 b3 : Nat) : Ipv4Addr :=
  let s_addr := readNativeU32 e b0 b1 b2 b3
  let ip_addr := ipv4FromU32 s_addr
  if e = .little then ipv4FromU32 (swapBytes32 s_addr) else ip_addr

/-! ## UTF-8 model

`String::from_utf8` (strict, used by the Unix decoder for interface names)
and `String::from_utf8_lossy` / `CStr::to_string_lossy` (used by the Linux
decoder) both follow the standard UTF-8 well-formedness table.  Strings are
modelled by their UTF-8 bytes; the lossy conversion replaces each maximal
subpart of an ill-formed subsequence with the replacement character
U+FFFD (bytes EF BF BD). -/

/-- UTF-8 encoding of U+FFFD, the replacement character. -/
def replacementChar : List Nat := [0xEF, 0xBF, 0xBD]

/-- Is `b` a UTF-8 continuation byte (80..BF)? -/
def isCont (b : Nat) : Bool := 0x80 ≤ b && b ≤ 0xBF

/-- Lower bound of the second byte of a three-byte sequence led by `b`. -/
def cont3Lo (b : Nat) : Nat := if b = 0xE0 then 0xA0 else 0x80

/-- Upper bound of the second byte of a three-byte sequence led by `b`. -/
def cont3Hi (b : Nat) : Nat := if b = 0xED then 0x9F else 0xBF

/-- Lower bound of the second byte of a four-byte sequence led by `b`. -/
def cont4Lo (b : Nat) : Nat := if b = 0xF0 then 0x90 else 0x80

/-- Upper bound of the second byte of a four-byte sequence led by `b`. -/
def cont4Hi (b : Nat) : Nat := if b = 0xF4 then 0x8F else 0xBF

/-- Classification of the head of a byte list: empty input, a leading
well-formed UTF-8 sequence `s` followed by `rest`, or a leading maximal
subpart `skip` of an ill-formed subsequence followed by `rest`. -/
inductive Utf8Step where
  | emptyInput
  | seq (s rest : List Nat)
  | bad (skip rest : List Nat)
deriving DecidableEq, Repr

/-- One step of the standard UTF-8 well-formedness table: ASCII, or a
correctly ranged 2-, 3- or 4-byte sequence; anything else is an ill-formed
subsequence whose maximal subpart (the bytes a conforming decoder consumes
for one replacement character) is returned as `skip`. -/
def utf8Classify : List Nat → Utf8Step
  | [] => .emptyInput
  | b :: rest =>
    if b < 0x80 then .seq [b] rest
    else if b < 0xC2 then .bad [b] rest
    else if b < 0xE0 then
      match rest with
      | [] => .bad [b] []
      | b1 :: rest1 =>
        if isCont b1 then .seq [b, b1] rest1 else .bad [b] (b1 :: rest1)
    else if b < 0xF0 then
      match rest with
      | [] => .bad [b] []
      | b1 :: rest1 =>
        if cont3Lo b ≤ b1 && b1 ≤ cont3Hi b then
          match rest1 with
          | [] => .bad [b, b1] []
          | b2 :: rest2 =>
            if isCont b2 then .seq [b, b1, b2] rest2 else .bad [b, b1] (b2 :: rest2)
        else .bad [b] (b1 :: rest1)
    else if b < 0xF5 then
      match rest with
      | [] => .bad [b] []
      | b1 :: rest1 =>
        if cont4Lo b ≤ b1 && b1 ≤ cont4Hi b then
          match rest1 with
          | [] => .bad [b, b1] []
          | b2 :: rest2 =>
            if isCont b2 then
              match rest2 with
              | [] => .bad [b, b1, b2] []
              | b3 :: rest3 =>
                if isCont b3 then .seq [b, b1, b2, b3] rest3
                else .bad [b, b1, b2] (b3 :: rest3)
            else .bad [b, b1] (b2 :: rest2)
        else .bad [b] (b1 :: rest1)
    else .bad [b] rest

/-- Fuel-indexed loop of `String::from_utf8_lossy`: emit each well-formed
sequence verbatim and a replacement character per maximal ill-formed
subpart.  The fuel only bounds recursion; `utf8Lossy` supplies enough. -/
def utf8LossyGo : Nat → List Nat → List Nat
  | 0, _ => []
  | fuel + 1, l =>
    match utf8Classify l with
    | .emptyInput => []
    | .seq s r => s ++ utf8LossyGo fuel r
    | .bad _ r => replacementChar ++ utf8LossyGo fuel r

/-- `String::from_utf8_lossy` on the byte level. -/
def utf8Lossy (l : List Nat) : List Nat := utf8LossyGo l.length l

/-- Fuel-indexed loop of the strict UTF-8 validation. -/
def isValidUtf8Go : Nat → List Nat → Bool
  | 0, _ => true
  | fuel + 1, l =>
    match utf8Classify l with
    | .emptyInput => true
    | .seq _ r => isValidUtf8Go fuel r
    | .bad _ _ => false

/-- Does `String::from_utf8` accept these bytes? -/
def isValidUtf8 (l : List Nat) : Bool := isValidUtf8Go l.length l

/-! ## Unix/BSD decoder (src/unix.rs)

A `getifaddrs` linked list is modelled as a `List` of nodes; a null
`ifa_addr` pointer is `none`.  The C loop in `list_afinet_netifas_info`
dereferences the current node and its `ifa_addr` without null checks, so the
model makes those dereferences explicit as the outcome `RunResult.crash`. -/

/-- `libc::IFF_LOOPBACK` (value 8 on the supported BSD/Unix targets). -/
def IFF_LOOPBACK : Nat := 8

/-- The `sockaddr` a node's `ifa_addr` points to, viewed through its
`sa_family` tag.  For `AF_INET` the four memory bytes of `sin_addr.s_addr`
are kept in increasing address order (the kernel stores them in network
byte order). -/
inductive Sockaddr where
  | inet (b0 b1 b2 b3 : Nat)
  | inet6 (bytes : List Nat)
  | otherFamily (family : Nat)
deriving DecidableEq, Repr

/-- One node of the `ifaddrs` linked list.  `ifa_name` holds the bytes of
the interface name up to (not including) the terminating NUL, which is what
the `strlen`-bounded slice in `get_ifa_name` reads. -/
structure IfaddrsNode where
  ifa_addr : Option Sockaddr
  ifa_flags : Nat
  ifa_name : List Nat
deriving DecidableEq, Repr

/-- The per-interface record produced by the decoder (`AfInetInfo`). -/
structure AfInetInfo where
  addr : IpAddr
  iname : List Nat
  is_loopback : Bool
deriving DecidableEq, Repr

/-- Outcome of running C code that may succeed, return an error value, or
dereference a null pointer (undefined behaviour, modelled as `crash`). -/
inductive RunResult (α : Type) where
  | ok (val : α)
  | err (e : Error)
  | crash
deriving DecidableEq, Repr

/-- The diagnostic text prefix of `get_ifa_name`'s UTF-8 failure. -/
def nameErrMsg : String :=
  "Failed to retrieve interface name. The name is not a valid UTF-8 string."

/-- `get_ifa_name` (src/unix.rs lines 129-140): decode the `strlen`-bounded
name bytes with the strict `String::from_utf8`; a failure is reported as
`Error::StrategyError`. -/
def get_ifa_name (name : List Nat) : Except Error (List Nat) :=
  if isValidUtf8 name then .ok name else .error (.StrategyError nameErrMsg)

/-- `is_loopback_addr` (src/unix.rs lines 143-146): bit-test the interface
flags against `IFF_LOOPBACK`. -/
def is_loopback_addr (ifa_flags : Nat) : Bool := ifa_flags &&& IFF_LOOPBACK != 0

/-- The body of the walk in `list_afinet_netifas_info` (src/unix.rs lines
74-121), one node at a time.  `(*ifa_addr).sa_family` is read without a null
check, so a node with a null `ifa_addr` crashes the walk.  Nodes of other
address families are skipped; a name-decoding failure aborts the whole walk
with that error. -/
def walkNodes (e : Endianness) : List IfaddrsNode → RunResult (List AfInetInfo)
  | [] => .ok []
  | n :: rest =>
    match n.ifa_addr with
    | none => .crash
    | some sa =>
      match sa with
      | .inet b0 b1 b2 b3 =>
        match get_ifa_name n.ifa_name with
        | .error er => .err er
        | .ok name =>
          match walkNodes e rest with
          | .ok l =>
            .ok (⟨.v4 (decodeSinAddr e b0 b1 b2 b3), name, is_loopback_addr n.ifa_flags⟩ :: l)
          | other => other
      | .inet6 bytes =>
        match get_ifa_name n.ifa_name with
        | .error er => .err er
        | .ok name =>
          match walkNodes e rest with
          | .ok l => .ok (⟨.v6 bytes, name, is_loopback_addr n.ifa_flags⟩ :: l)
          | other => other
      | .otherFamily _ => walkNodes e rest

/-- The do-while walk of `list_afinet_netifas_info`: the head node is
dereferenced before any null check, so an empty list (null head pointer)
crashes; otherwise every node of the list is processed in order. -/
def walkIfaddrs (e : Endianness) (nodes : List IfaddrsNode) : RunResult (List AfInetInfo) :=
  match nodes with
  | [] => .crash
  | _ => walkNodes e nodes

/-- `list_afinet_netifas_info` (src/unix.rs lines 50-126): a non-zero
`getifaddrs` return value becomes a `StrategyError`; otherwise the linked
list is walked. -/
def list_afinet_netifas_info (e : Endianness) (getifaddrs_result : Int)
    (nodes : List IfaddrsNode) : RunResult (List AfInetInfo) :=
  if getifaddrs_result ≠ 0 then
    .err (.StrategyError ("GetIfAddrs returned error: " ++ toString getifaddrs_result))
  else
    walkIfaddrs e nodes

/-- Resource events of one invocation of `list_afinet_netifas_info`:
allocation of the local `IfAddrsPtr` holder (`alloc`), the kernel's
allocation of the interface list (`getifaddrs`), and the releases
(`dealloc` of the holder; `freeifaddrs` for the kernel list). -/
inductive ResEvent where
  | holderAlloc
  | kernelAlloc
  | holderFree
  | kernelFree
deriving DecidableEq, Repr

/-- The same function together with the trace of resource events its source
actually performs: the holder is allocated first; a successful `getifaddrs`
allocates the kernel list; only the success path reaches the final
`dealloc(ptr, layout)`; no exit path of the source calls `freeifaddrs`. -/
def list_afinet_netifas_trace (e : Endianness) (getifaddrs_result : Int)
    (nodes : List IfaddrsNode) : RunResult (List AfInetInfo) × List ResEvent :=
  if getifaddrs_result ≠ 0 then
    (.err (.StrategyError ("GetIfAddrs returned error: " ++ toString getifaddrs_result)),
      [.holderAlloc])
  else
    match walkIfaddrs e nodes with
    | .ok l => (.ok l, [.holderAlloc, .kernelAlloc, .holderFree])
    | .err er => (.err er, [.holderAlloc, .kernelAlloc])
    | .crash => (.crash, [.holderAlloc, .kernelAlloc])

/-- The selection in `local_ip` for Unix/BSD targets (src/lib.rs lines
123-133): the first decoder entry that is non-loopback and IPv4, otherwise
`LocalIpAddressNotFound`. -/
def local_ip_from_ifas (ifas : List AfInetInfo) : Except Error IpAddr :=
  match ifas.findSome? (fun i => if !i.is_loopback && i.addr.isV4 then some i.addr else none) with
  | some ip => .ok ip
  | none => .error .LocalIpAddressNotFound

/-- `local_ip` on Unix/BSD targets: run the decoder, then select. -/
def local_ip_unix (e : Endianness) (getifaddrs_result : Int)
    (nodes : List IfaddrsNode) : RunResult IpAddr :=
  match list_afinet_netifas_info e getifaddrs_result nodes with
  | .ok ifas =>
    match local_ip_from_ifas ifas with
    | .ok ip => .ok ip
    | .error er => .err er
  | .err er => .err er
  | .crash => .crash

/-! ## Linux decoder (src/linux.rs)

The netlink exchange is modelled as explicit lists of responses: the
route-lookup request's responses (`Rtmsg` payloads) and the address-dump
request's responses (`Ifaddrmsg` payloads).  Attribute payloads are kept as
raw wire bytes (network byte order); `get_payload_as::<u32>` is a native
read of those bytes, to which the code applies `u32::from_be`. -/

/-- The diagnostic text of `CStr::from_bytes_with_nul`'s rejection, as
wrapped by `parse_ifname` (the library's exact text is abstracted). -/
def cstrNulErrMsg : String :=
  "An error occurred converting interface name to string: data provided contains an interior nul byte"

/-- `parse_ifname` (src/linux.rs lines 437-452): if the bytes end with a NUL
run them through `CStr::from_bytes_with_nul` (which rejects any interior
NUL) and `to_string_lossy`; otherwise through `String::from_utf8_lossy`. -/
def parse_ifname (bytes : List Nat) : Except Error (List Nat) :=
  if bytes.getLast? = some 0 then
    if bytes.dropLast.contains 0 then
      .error (.StrategyError cstrNulErrMsg)
    else
      .ok (utf8Lossy bytes.dropLast)
  else
    .ok (utf8Lossy bytes)

/-- Netlink address families (`RtAddrFamily`) as used by `local_ip_impl`. -/
inductive RtFamily where
  | inet
  | inet6
  | otherFam (n : Nat)
deriving DecidableEq, Repr

/-- Netlink route message types (`Rtm`) as checked by the decoders. -/
inductive Rtm where
  | newroute
  | newaddr
  | newlink
  | otherTy (n : Nat)
deriving DecidableEq, Repr

/-- Route attribute types (`Rta`) relevant to the route lookup. -/
inductive RtaTy where
  | dst
  | prefsrc
  | rtaOther (n : Nat)
deriving DecidableEq, Repr

/-- Address attribute types (`Ifa`) relevant to the address dump. -/
inductive IfaTy where
  | ifaLocal
  | ifaAddress
  | ifaLabel
  | ifaOther (n : Nat)
deriving DecidableEq, Repr

/-- `Rtmsg` as far as `local_ip_impl` reads it: scope (0 is
`RtScope::Universe`), family, and the attribute list (type, wire bytes). -/
structure Rtmsg where
  rtm_scope : Nat
  rtm_family : RtFamily
  rtattrs : List (RtaTy × List Nat)
deriving DecidableEq, Repr

/-- `Ifaddrmsg` as far as `local_ip_impl` reads it. -/
structure Ifaddrmsg where
  ifa_scope : Nat
  ifa_family : RtFamily
  ifa_index : Nat
  rtattrs : List (IfaTy × List Nat)
deriving DecidableEq, Repr

/-- `NlPayload`: either empty or a typed payload. -/
inductive NlPayloadM (π : Type) where
  | empty
  | payload (p : π)
deriving DecidableEq, Repr

/-- One response drawn from the netlink socket iterator: either a
socket-level error (with the flag telling whether the embedded errno is
`-ENETUNREACH`) or a message header with type and payload. -/
inductive NlResp (π : Type) where
  | sockErr (netUnreach : Bool)
  | msg (nlType : Rtm) (pl : NlPayloadM π)
deriving DecidableEq, Repr

/-- `u32::from_be` on the given target: identity on big-endian, byte swap on
little-endian. -/
def u32FromBe (e : Endianness) (v : Nat) : Nat :=
  if e = .little then swapBytes32 v else v

/-- `get_payload_as::<u32>` followed by `u32::from_be` then
`Ipv4Addr::from`: deserialize exactly four wire bytes. -/
def decodeAttrV4 (e : Endianness) (bytes : List Nat) : Option Ipv4Addr :=
  match bytes with
  | [b0, b1, b2, b3] => some (ipv4FromU32 (u32FromBe e (readNativeU32 e b0 b1 b2 b3)))
  | _ => none

/-- Value of a byte list read least-significant-byte-first. -/
def natOfBytesLE : List Nat → Nat
  | [] => 0
  | b :: r => b + 256 * natOfBytesLE r

/-- The sixteen big-endian bytes of a 128-bit value. -/
def bytesOfNatBE16 (v : Nat) : List Nat :=
  (List.range 16).map (fun i => byteOf v (15 - i))

/-- Reading sixteen memory bytes as a native `u128`. -/
def readNativeU128 (e : Endianness) (bytes : List Nat) : Nat :=
  match e with
  | .little => natOfBytesLE bytes
  | .big => natOfBytesLE bytes.reverse

/-- `u128::swap_bytes`. -/
def swapBytes128 (v : Nat) : Nat := natOfBytesLE (bytesOfNatBE16 v)

/-- `u128::from_be` on the given target. -/
def u128FromBe (e : Endianness) (v : Nat) : Nat :=
  if e = .little then swapBytes128 v else v

/-- `Ipv6Addr::from(u128)`: the sixteen big-endian bytes of the value. -/
def ipv6FromU128 (v : Nat) : List Nat := bytesOfNatBE16 v

/-- `get_payload_as::<u128>` followed by `u128::from_be` then
`Ipv6Addr::from`: deserialize exactly sixteen wire bytes. -/
def decodeAttrV6 (e : Endianness) (bytes : List Nat) : Option (List Nat) :=
  if bytes.length = 16 then
    some (ipv6FromU128 (u128FromBe e (readNativeU128 e bytes)))
  else
    none

/-- Decode one attribute payload according to the message's family, the way
`local_ip_impl` does in both of its loops. -/
def decodeAttr (e : Endianness) (family : RtFamily) (bytes : List Nat) : Option IpAddr :=
  match family with
  | .inet => (decodeAttrV4 e bytes).map IpAddr.v4
  | .inet6 => (decodeAttrV6 e bytes).map IpAddr.v6
  | .otherFam _ => none

/-- First `Rta::Prefsrc` attribute of a route message, as found by the inner
`for` loop of the route-lookup phase. -/
def firstPrefsrc (attrs : List (RtaTy × List Nat)) : Option (List Nat) :=
  attrs.findSome? (fun a => if a.1 = .prefsrc then some a.2 else none)

/-- First `Ifa::Local` attribute of an address message, as found by the
inner `for` loop of the address-dump phase. -/
def firstIfaLocal (attrs : List (IfaTy × List Nat)) : Option (List Nat) :=
  attrs.findSome? (fun a => if a.1 = .ifaLocal then some a.2 else none)

/-- Outcome of the route-lookup phase of `local_ip_impl`. -/
inductive Phase1Out where
  | found (ip : IpAddr)
  | fail (er : Error)
  | exhausted
deriving DecidableEq, Repr

/-- Diagnostic text used for an unexpected netlink header type. -/
def hdrTypeErrMsg : String := "The Netlink header type is not the expected"

/-- Diagnostic text used for failed attribute deserialization. -/
def attrErrMsg : String := "An error occurred retrieving Netlink's route payload attribute"

/-- Diagnostic text used for a netlink socket-level error. -/
def sockErrMsg : String := "An error occurred retrieving Netlink's socket response"

/-- Diagnostic text used for a family mismatch in a netlink payload. -/
def familyErrMsg : String := "Invalid address family in Netlink payload"

/-- The route-lookup loop of `local_ip_impl` (src/linux.rs lines 86-148):
walk the responses; an `ENETUNREACH` socket error is
`LocalIpAddressNotFound`, any other socket error a `StrategyError`; empty
payloads and non-universe scopes are skipped; a non-`Newroute` header or a
family mismatch aborts; the first `Rta::Prefsrc` attribute of the first
qualifying message is decoded and returned. -/
def runPhase1 (e : Endianness) (family : RtFamily) : List (NlResp Rtmsg) → Phase1Out
  | [] => .exhausted
  | .sockErr netUnreach :: _ =>
    if netUnreach then .fail .LocalIpAddressNotFound else .fail (.StrategyError sockErrMsg)
  | .msg _ .empty :: rest => runPhase1 e family rest
  | .msg ty (.payload p) :: rest =>
    if ty ≠ .newroute then .fail (.StrategyError hdrTypeErrMsg)
    else if p.rtm_scope ≠ 0 then runPhase1 e family rest
    else if p.rtm_family ≠ family then .fail (.StrategyError familyErrMsg)
    else
      match firstPrefsrc p.rtattrs with
      | some bytes =>
        match decodeAttr e family bytes with
        | some ip => .found ip
        | none => .fail (.StrategyError attrErrMsg)
      | none => runPhase1 e family rest

/-- The address-dump loop of `local_ip_impl` (src/linux.rs lines 171-228):
like the route loop but over `Ifaddrmsg` payloads, expecting `Newaddr`
headers, taking the first `Ifa::Local` attribute of the first universe-scope
message; when the loop exhausts the responses the function returns
`LocalIpAddressNotFound` (line 230). -/
def runPhase2 (e : Endianness) (family : RtFamily) : List (NlResp Ifaddrmsg) → Except Error IpAddr
  | [] => .error .LocalIpAddressNotFound
  | .sockErr _ :: _ => .error (.StrategyError sockErrMsg)
  | .msg _ .empty :: rest => runPhase2 e family rest
  | .msg ty (.payload p) :: rest =>
    if ty ≠ .newaddr then .error (.StrategyError hdrTypeErrMsg)
    else if p.ifa_scope ≠ 0 then runPhase2 e family rest
    else if p.ifa_family ≠ family then .error (.StrategyError familyErrMsg)
    else
      match firstIfaLocal p.rtattrs with
      | some bytes =>
        match decodeAttr e family bytes with
        | some ip => .ok ip
        | none => .error (.StrategyError attrErrMsg)
      | none => runPhase2 e family rest

/-- Diagnostic text for an unsupported requested family. -/
def invalidFamilyMsg : String := "Invalid address family given"

/-- `local_ip_impl` (src/linux.rs lines 37-231): reject families other than
`Inet`/`Inet6`; run the route lookup; if it finds a preferred source return
it, if it fails propagate the error, and if it exhausts its responses
without a preferred-source attribute, run the address dump. -/
def local_ip_impl (e : Endianness) (family : RtFamily)
    (resp1 : List (NlResp Rtmsg)) (resp2 : List (NlResp Ifaddrmsg)) : Except Error IpAddr :=
  match family with
  | .otherFam _ => .error (.StrategyError invalidFamilyMsg)
  | _ =>
    match runPhase1 e family resp1 with
    | .found ip => .ok ip
    | .fail er => .error er
    | .exhausted => runPhase2 e family resp2

/-- Does this attribute payload deserialize for the given family?  (Exactly
four wire bytes for `Inet`, sixteen for `Inet6`.) -/
def attrDecodes (family : RtFamily) (bytes : List Nat) : Bool :=
  match family with
  | .inet => bytes.length == 4
  | .inet6 => bytes.length == 16
  | .otherFam _ => false

/-- Well-formedness of an address-dump response list: no socket errors, all
headers are `Newaddr`, every payload carries the requested family, and in
universe-scope payloads every `Ifa::Local` attribute deserializes. -/
def wellFormed2 (family : RtFamily) (resps : List (NlResp Ifaddrmsg)) : Bool :=
  resps.all (fun r =>
    match r with
    | .sockErr _ => false
    | .msg ty .empty => ty == .newaddr
    | .msg ty (.payload p) =>
      ty == .newaddr && p.ifa_family == family &&
        (p.ifa_scope != 0 ||
          p.rtattrs.all (fun a => !(a.1 == IfaTy.ifaLocal) || attrDecodes family a.2)))

/-- Written from the claim's words, for comparison with the loop above: the
first universe-scope local-address attribute of the dump, decoded for the
requested family. -/
def firstLocalAddr (e : Endianness) (family : RtFamily)
    (resps : List (NlResp Ifaddrmsg)) : Option IpAddr :=
  resps.findSome? (fun r =>
    match r with
    | .msg _ (.payload p) =>
      if p.ifa_scope = 0 then (firstIfaLocal p.rtattrs).bind (decodeAttr e family) else none
    | _ => none)

/-! ## Windows decoder (src/windows.rs and the historical src/windows/mod.rs)

The kernel tables are modelled as values: the IPv4 routing table
(`GetIpForwardTable`) and the adapter list (`GetAdaptersAddresses`), each
either an error code or decoded rows.  The buffer-growth retry loops are
modelled against an abstract sequence of per-call kernel status codes. -/

/-- Win32 `ERROR_SUCCESS`. -/
def ERROR_SUCCESS : Nat := 0

/-- Win32 `ERROR_NOT_ENOUGH_MEMORY`. -/
def ERROR_NOT_ENOUGH_MEMORY : Nat := 8

/-- Win32 `ERROR_NOT_SUPPORTED`. -/
def ERROR_NOT_SUPPORTED : Nat := 50

/-- Win32 `ERROR_BUFFER_OVERFLOW`. -/
def ERROR_BUFFER_OVERFLOW : Nat := 111

/-- Win32 `ERROR_NO_DATA`. -/
def ERROR_NO_DATA : Nat := 232

/-- Win32 `ERROR_ADDRESS_NOT_ASSOCIATED`. -/
def ERROR_ADDRESS_NOT_ASSOCIATED : Nat := 1228

/-- One row of `MIB_IPFORWARDTABLE` as read by `list_local_ip_addresses`. -/
structure ForwardRow where
  dwForwardDest : Nat
  dwForwardIfIndex : Nat
deriving DecidableEq, Repr

/-- A Windows `SOCKADDR` viewed through its family tag.  For `AF_INET` the
four memory bytes of `sin_addr` are kept in increasing address order; the
code reads them back with `to_ne_bytes`, which returns exactly these bytes
on either endianness. -/
inductive WinSockaddr where
  | inet (b0 b1 b2 b3 : Nat)
  | inet6 (bytes : List Nat)
  | otherSa (family : Nat)
deriving DecidableEq, Repr

/-- One `IP_ADAPTER_UNICAST_ADDRESS_LH` node; a null `lpSockaddr` is
`none`. -/
structure UnicastAddress where
  lpSockaddr : Option WinSockaddr
deriving DecidableEq, Repr

/-- One `IP_ADAPTER_ADDRESSES_LH` node: interface index and the linked list
of unicast addresses. -/
structure Adapter where
  ifIndex : Nat
  firstUnicastAddress : List UnicastAddress
deriving DecidableEq, Repr

/-- The kernel state a single `list_local_ip_addresses` call observes. -/
structure WinState where
  forwardTable : Except Nat (List ForwardRow)
  adapters : Except Nat (List Adapter)
deriving Repr

/-- `get_ip_address_from_socket_address` (src/windows.rs lines 217-233). -/
def get_ip_address_from_socket_address : WinSockaddr → Option IpAddr
  | .inet b0 b1 b2 b3 => some (.v4 ⟨b0, b1, b2, b3⟩)
  | .inet6 bytes => some (.v6 bytes)
  | .otherSa _ => none

/-- `format_error_code` (src/windows.rs lines 237-267) asks the OS for a
localized message; the text is abstracted as the decimal code. -/
def format_error_code (c : Nat) : String := toString c

/-- The default-route interface indices: rows whose `dwForwardDest` is
`0.0.0.0` (src/windows.rs lines 38-64). -/
def defaultRouteIndices (rows : List ForwardRow) : List Nat :=
  rows.filterMap (fun r => if r.dwForwardDest = 0 then some r.dwForwardIfIndex else none)

/-- The success-path body of `list_local_ip_addresses` (src/windows.rs lines
70-88): keep adapters whose interface index is in the default-route set and
flatten their decodable unicast socket addresses, in enumeration order. -/
def collectDefaultRouteIps (rows : List ForwardRow) (adapters : List Adapter) : List IpAddr :=
  ((adapters.filter (fun a => (defaultRouteIndices rows).contains a.ifIndex)).map
    (fun a => a.firstUnicastAddress.filterMap
      (fun u => u.lpSockaddr.bind get_ip_address_from_socket_address))).flatten

/-- `list_local_ip_addresses` (src/windows.rs lines 35-89): a failed routing
table read maps `ERROR_NO_DATA`/`ERROR_NOT_SUPPORTED` to
`LocalIpAddressNotFound` and anything else to `StrategyError`; a failed
adapter read maps `ERROR_ADDRESS_NOT_ASSOCIATED`/`ERROR_NO_DATA` to
`LocalIpAddressNotFound`; otherwise the default-route addresses are
collected. -/
def list_local_ip_addresses (st : WinState) : Except Error (List IpAddr) :=
  match st.forwardTable with
  | .error ec =>
    .error (if ec = ERROR_NO_DATA ∨ ec = ERROR_NOT_SUPPORTED then
      Error.LocalIpAddressNotFound else Error.StrategyError (format_error_code ec))
  | .ok rows =>
    match st.adapters with
    | .error ec =>
      .error (if ec = ERROR_ADDRESS_NOT_ASSOCIATED ∨ ec = ERROR_NO_DATA then
        Error.LocalIpAddressNotFound else Error.StrategyError (format_error_code ec))
    | .ok adapters => .ok (collectDefaultRouteIps rows adapters)

/-- `local_ip` on Windows (src/lib.rs lines 136-146): the first IPv4 entry
of `list_local_ip_addresses(AF_INET)`, otherwise `LocalIpAddressNotFound`. -/
def windows_local_ip (st : WinState) : Except Error IpAddr :=
  match list_local_ip_addresses st with
  | .error er => .error er
  | .ok ips =>
    match ips.find? IpAddr.isV4 with
    | some ip => .ok ip
    | none => .error .LocalIpAddressNotFound

/-- Written from the spec's words, for comparison with the code: loopback
means the IPv4 `127.0.0.0/8` block or the IPv6 loopback address. -/
def spec_is_loopback : IpAddr → Bool
  | .v4 x => x.a == 127
  | .v6 bytes => bytes == (List.replicate 15 0 ++ [1])

/-- Written from the claim's words, for comparison with the code: the
fallback "first non-loopback address matching the requested family" (IPv4
here), over all adapters in enumeration order. -/
def spec_fallback_first_v4_non_loopback (adapters : List Adapter) : Option IpAddr :=
  ((adapters.map (fun a => a.firstUnicastAddress.filterMap
      (fun u => u.lpSockaddr.bind get_ip_address_from_socket_address))).flatten).find?
    (fun ip => !spec_is_loopback ip && ip.isV4)

/-- The `GetAdaptersAddresses` buffer-growth loop of `get_adapter_addresses`
(src/windows.rs lines 180-214), run against the sequence of kernel status
codes (`responses i` is the status of the `i`-th call) with explicit fuel:
`none` means the loop is still retrying after `fuel` calls; `ERROR_SUCCESS`
exits with the buffer, `ERROR_BUFFER_OVERFLOW` reallocates and retries
(without any attempt bound in this source), and any other status exits with
that error code. -/
def getAdapterAddressesFuel (responses : Nat → Nat) : Nat → Nat → Option (Except Nat Unit)
  | _, 0 => none
  | i, fuel + 1 =>
    if responses i = ERROR_SUCCESS then some (.ok ())
    else if responses i = ERROR_BUFFER_OVERFLOW then
      getAdapterAddressesFuel responses (i + 1) fuel
    else some (.error (responses i))

/-- The bounded retry loop of the historical `impl_find_af_inet`
(src/windows/mod.rs lines 20-39): `n_tries` starts at 3 and the loop breaks
as soon as the status is not `ERROR_BUFFER_OVERFLOW` or the tries are spent.
Returns (number of kernel calls made, final status). -/
def implRetryGo (responses : Nat → Nat) (i : Nat) : Nat → Nat × Nat
  | 0 => (i + 1, responses i)
  | t + 1 =>
    if responses i ≠ ERROR_BUFFER_OVERFLOW then (i + 1, responses i)
    else implRetryGo responses (i + 1) t

/-- The historical bounded retry loop, from its initial `n_tries = 3`. -/
def implRetry (responses : Nat → Nat) : Nat × Nat := implRetryGo responses 0 3

/-- Is this node's `sa_family` one of the two decoded families? -/
def isInetNode (n : IfaddrsNode) : Bool :=
  match n.ifa_addr with
  | some (.inet _ _ _ _) => true
  | some (.inet6 _) => true
  | _ => false

/-! ## Helper lemmas -/

/-- A `seq` classification splits the input and strictly shortens it. -/
theorem utf8Classify_seq_eq {l s r : List Nat} (h : utf8Classify l = .seq s r) :
    l = s ++ r ∧ r.length < l.length := by
  match l with
  | [] => simp [utf8Classify] at h
  | b :: rest =>
    simp only [utf8Classify] at h
    repeat' split at h
    all_goals (cases h <;> simp <;> omega)

/-- A `bad` classification strictly shortens the input. -/
theorem utf8Classify_bad_eq {l sk r : List Nat} (h : utf8Classify l = .bad sk r) :
    r.length < l.length := by
  match l with
  | [] => simp [utf8Classify] at h
  | b :: rest =>
    simp only [utf8Classify] at h
    repeat' split at h
    all_goals (cases h <;> simp_all)

/-- Only the empty input classifies as `emptyInput`. -/
theorem utf8Classify_empty_eq {l : List Nat} (h : utf8Classify l = .emptyInput) :
    l = [] := by
  match l with
  | [] => rfl
  | b :: rest =>
    simp only [utf8Classify] at h
    repeat' split at h
    all_goals cases h

/-- With enough fuel, valid input is reproduced verbatim by the lossy
conversion. -/
theorem utf8LossyGo_of_valid : ∀ (fuel : Nat) (l : List Nat), l.length ≤ fuel →
    isValidUtf8Go fuel l = true → utf8LossyGo fuel l = l := by
  intro fuel
  induction fuel with
  | zero =>
    intro l hl _
    have : l = [] := List.eq_nil_of_length_eq_zero (Nat.le_zero.mp hl)
    simp [this, utf8LossyGo]
  | succ fuel ih =>
    intro l hl hv
    simp only [utf8LossyGo, isValidUtf8Go] at *
    cases h : utf8Classify l with
    | emptyInput => simp [utf8Classify_empty_eq h]
    | seq s r =>
      rw [h] at hv
      obtain ⟨hsr, hlen⟩ := utf8Classify_seq_eq h
      have := ih r (by omega) hv
      simp [this, hsr]
    | bad sk r => rw [h] at hv; cases hv

/-- `String::from_utf8_lossy` is the identity on valid UTF-8. -/
theorem utf8Lossy_of_valid {l : List Nat} (h : isValidUtf8 l = true) : utf8Lossy l = l :=
  utf8LossyGo_of_valid l.length l le_rfl h

/-- `findSome?` returns the image of the first hit. -/
theorem findSome_first {α β : Type} (f : α → Option β) :
    ∀ (l1 : List α) (x : α) (l2 : List α) (b : β),
      (∀ j ∈ l1, f j = none) → f x = some b → (l1 ++ x :: l2).findSome? f = some b := by
  intro l1
  induction l1 with
  | nil => intro x l2 b _ hx; simp [List.findSome?, hx]
  | cons a l ih =>
    intro x l2 b hnone hx
    have ha : f a = none := hnone a (by simp)
    simp only [List.cons_append, List.findSome?, ha]
    exact ih x l2 b (fun j hj => hnone j (by simp [hj])) hx

/-- `findSome?` misses when every element misses. -/
theorem findSome_none {α β : Type} (f : α → Option β) :
    ∀ l : List α, (∀ j ∈ l, f j = none) → l.findSome? f = none := by
  intro l
  induction l with
  | nil => intro _; simp [List.findSome?]
  | cons a rest ih =>
    intro h
    have ha : f a = none := h a (by simp)
    simp only [List.findSome?, ha]
    exact ih (fun j hj => h j (by simp [hj]))

/-- `find?` returns the first element satisfying the predicate. -/
theorem find_first {α : Type} (p : α → Bool) :
    ∀ (l1 : List α) (x : α) (l2 : List α),
      (∀ j ∈ l1, p j = false) → p x = true → (l1 ++ x :: l2).find? p = some x := by
  intro l1
  induction l1 with
  | nil => intro x l2 _ hx; simp [List.find?, hx]
  | cons a l ih =>
    intro x l2 hnone hx
    have ha : p a = false := hnone a (by simp)
    simp only [List.cons_append, List.find?, ha]
    exact ih x l2 (fun j hj => hnone j (by simp [hj])) hx

/-- `find?` misses when every element fails the predicate. -/
theorem find_none {α : Type} (p : α → Bool) :
    ∀ l : List α, (∀ j ∈ l, p j = false) → l.find? p = none := by
  intro l
  induction l with
  | nil => intro _; simp [List.find?]
  | cons a rest ih =>
    intro h
    have ha : p a = false := h a (by simp)
    simp only [List.find?, ha]
    exact ih (fun j hj => h j (by simp [hj]))

/-! ## Claim C2 -/

/-- The byte swap of a little-endian read is the big-endian read. -/
theorem swapBytes32_readLE (b0 b1 b2 b3 : Nat)
    (h0 : b0 < 256) (h1 : b1 < 256) (h2 : b2 < 256) (h3 : b3 < 256) :
    swapBytes32 (readNativeU32 .little b0 b1 b2 b3) = readNativeU32 .big b0 b1 b2 b3 := by
  simp only [swapBytes32, readNativeU32, byteOf]
  norm_num
  omega

/-- `Ipv4Addr::from` of a big-endian read recovers the memory bytes. -/
theorem ipv4FromU32_readBE (b0 b1 b2 b3 : Nat)
    (h0 : b0 < 256) (h1 : b1 < 256) (h2 : b2 < 256) (h3 : b3 < 256) :
    ipv4FromU32 (readNativeU32 .big b0 b1 b2 b3) = ⟨b0, b1, b2, b3⟩ := by
  simp only [ipv4FromU32, readNativeU32, byteOf, Ipv4Addr.mk.injEq]
  norm_num
  omega

/-- C2: when the Unix/BSD decoder extracts an IPv4 address, the raw 32-bit
value (network byte order in memory) is byte-reversed exactly once on a
little-endian target and not reversed on a big-endian target, and for every
input both targets yield the same four octets — the network-order bytes. -/
theorem unix_ipv4_endianness_decode (b0 b1 b2 b3 : Nat)
    (h0 : b0 < 256) (h1 : b1 < 256) (h2 : b2 < 256) (h3 : b3 < 256) :
    decodeSinAddr .little b0 b1 b2 b3 = decodeSinAddr .big b0 b1 b2 b3 ∧
    decodeSinAddr .big b0 b1 b2 b3 = ⟨b0, b1, b2, b3⟩ ∧
    decodeSinAddr .little b0 b1 b2 b3 =
      ipv4FromU32 (swapBytes32 (readNativeU32 .little b0 b1 b2 b3)) := by
  have hl : decodeSinAddr .little b0 b1 b2 b3 =
      ipv4FromU32 (swapBytes32 (readNativeU32 .little b0 b1 b2 b3)) := by
    simp [decodeSinAddr]
  have hb : decodeSinAddr .big b0 b1 b2 b3 = ipv4FromU32 (readNativeU32 .big b0 b1 b2 b3) := by
    simp [decodeSinAddr]
  have hbo : decodeSinAddr .big b0 b1 b2 b3 = ⟨b0, b1, b2, b3⟩ := by
    rw [hb, ipv4FromU32_readBE b0 b1 b2 b3 h0 h1 h2 h3]
  refine ⟨?_, hbo, hl⟩
  rw [hl, hbo, swapBytes32_readLE b0 b1 b2 b3 h0 h1 h2 h3,
    ipv4FromU32_readBE b0 b1 b2 b3 h0 h1 h2 h3]

/-- Witness for C2 at the concrete address bytes 192.168.1.7. -/
theorem unix_ipv4_endianness_decode_witness :
    ((192 : Nat) < 256 ∧ (168 : Nat) < 256 ∧ (1 : Nat) < 256 ∧ (7 : Nat) < 256) ∧
    decodeSinAddr .little 192 168 1 7 = decodeSinAddr .big 192 168 1 7 ∧
    decodeSinAddr .big 192 168 1 7 = ⟨192, 168, 1, 7⟩ :=
  ⟨by decide,
    (unix_ipv4_endianness_decode 192 168 1 7 (by decide) (by decide) (by decide) (by decide)).1,
    (unix_ipv4_endianness_decode 192 168 1 7 (by decide) (by decide) (by decide) (by decide)).2.1⟩

/-! ## Claim C1 -/

/-- C1: on Unix/BSD, `local_ip` returns the address of the first decoder
entry that is non-loopback and IPv4, and `LocalIpAddressNotFound` when no
entry of the enumerated list satisfies both conditions. -/
theorem unix_local_ip_first_non_loopback_ipv4 :
    (∀ (l1 : List AfInetInfo) (i : AfInetInfo) (l2 : List AfInetInfo),
      (!i.is_loopback && i.addr.isV4) = true →
      (∀ j ∈ l1, (!j.is_loopback && j.addr.isV4) = false) →
      local_ip_from_ifas (l1 ++ i :: l2) = .ok i.addr) ∧
    (∀ ifas : List AfInetInfo,
      (∀ j ∈ ifas, (!j.is_loopback && j.addr.isV4) = false) →
      local_ip_from_ifas ifas = .error .LocalIpAddressNotFound) := by
  constructor
  · intro l1 i l2 hi hnone
    have h := findSome_first
      (fun i : AfInetInfo => if !i.is_loopback && i.addr.isV4 then some i.addr else none)
      l1 i l2 i.addr (fun j hj => by simp [hnone j hj]) (by simp [hi])
    simp only [local_ip_from_ifas, h]
  · intro ifas hnone
    have h := findSome_none
      (fun i : AfInetInfo => if !i.is_loopback && i.addr.isV4 then some i.addr else none)
      ifas (fun j hj => by simp [hnone j hj])
    simp only [local_ip_from_ifas, h]

/-- Witness for C1: a loopback entry followed by a routable IPv4 entry
selects the latter; an all-loopback list yields `LocalIpAddressNotFound`. -/
theorem unix_local_ip_first_non_loopback_ipv4_witness :
    local_ip_from_ifas [⟨.v4 ⟨127, 0, 0, 1⟩, [108, 111], true⟩,
      ⟨.v4 ⟨192, 168, 1, 7⟩, [101, 110, 48], false⟩] = .ok (.v4 ⟨192, 168, 1, 7⟩) ∧
    local_ip_from_ifas [⟨.v4 ⟨127, 0, 0, 1⟩, [108, 111], true⟩]
      = .error .LocalIpAddressNotFound :=
  ⟨unix_local_ip_first_non_loopback_ipv4.1 [⟨.v4 ⟨127, 0, 0, 1⟩, [108, 111], true⟩]
      ⟨.v4 ⟨192, 168, 1, 7⟩, [101, 110, 48], false⟩ [] (by decide) (by decide),
    unix_local_ip_first_non_loopback_ipv4.2 [⟨.v4 ⟨127, 0, 0, 1⟩, [108, 111], true⟩] (by decide)⟩

/-! ## Claim C3 -/

/-- C3 (code bug): the source of `list_afinet_netifas_info` never calls
`freeifaddrs` — a successful walk over a one-interface list allocates the
kernel list and releases only the local holder, and a walk aborted by an
invalid interface name releases nothing at all. -/
theorem unix_getifaddrs_leaks_kernel_list :
    (list_afinet_netifas_trace .little 0 [⟨some (.inet 192 168 1 7), 0, [101, 110, 48]⟩]).2
      = [.holderAlloc, .kernelAlloc, .holderFree] ∧
    ResEvent.kernelFree ∉
      (list_afinet_netifas_trace .little 0 [⟨some (.inet 192 168 1 7), 0, [101, 110, 48]⟩]).2 ∧
    (list_afinet_netifas_trace .little 0 [⟨some (.inet 192 168 1 7), 0, [255]⟩]).2
      = [.holderAlloc, .kernelAlloc] := by
  decide

/-! ## Claim C4 -/

/-- C4 (code bug): a list node whose `ifa_addr` pointer is null is
dereferenced by the walk (`(*ifa_addr).sa_family`) with no null check, so
the enumeration crashes instead of skipping the node and continuing. -/
theorem unix_null_ifa_addr_crashes :
    walkIfaddrs .little [⟨none, 0, [116, 117, 110, 48]⟩,
      ⟨some (.inet 192 168 1 7), 0, [101, 110, 48]⟩] = .crash := by
  decide

/-! ## Claim C5 -/

/-- Against a kernel that answers `ERROR_BUFFER_OVERFLOW` on every call, the
`get_adapter_addresses` loop of src/windows.rs is still retrying after any
number of calls. -/
theorem gaaFuel_allOverflow : ∀ (fuel i : Nat),
    getAdapterAddressesFuel (fun _ => ERROR_BUFFER_OVERFLOW) i fuel = none := by
  intro fuel
  induction fuel with
  | zero => intro i; rfl
  | succ fuel ih =>
    intro i
    simp only [getAdapterAddressesFuel]
    rw [if_neg (by decide)]
    simpa using ih (i + 1)

/-- The `get_adapter_addresses` loop exits at the first response that is not
`ERROR_BUFFER_OVERFLOW`, given enough fuel. -/
theorem gaaFuel_first_exit (responses : Nat → Nat) :
    ∀ (k i fuel : Nat), (∀ j, j < k → responses (i + j) = ERROR_BUFFER_OVERFLOW) →
      responses (i + k) ≠ ERROR_BUFFER_OVERFLOW → k < fuel →
      getAdapterAddressesFuel responses i fuel =
        some (if responses (i + k) = ERROR_SUCCESS then .ok () else .error (responses (i + k))) := by
  intro k
  induction k with
  | zero =>
    intro i fuel h hk hf
    match fuel, hf with
    | fuel + 1, _ =>
      simp only [getAdapterAddressesFuel, Nat.add_zero] at *
      by_cases hs : responses i = ERROR_SUCCESS
      · simp [hs]
      · simp [hs, hk]
  | succ k ih =>
    intro i fuel h hk hf
    match fuel, hf with
    | fuel + 1, _ =>
      have h0 : responses i = ERROR_BUFFER_OVERFLOW := by
        have := h 0 (Nat.succ_pos k)
        simpa using this
      have hne : ¬ responses i = ERROR_SUCCESS := by
        rw [h0]; decide
      simp only [getAdapterAddressesFuel]
      rw [if_neg hne, if_pos h0]
      have hrec := ih (i + 1) fuel
        (fun j hj => by
          rw [show i + 1 + j = i + (j + 1) by omega]
          exact h (j + 1) (by omega))
        (by rw [show i + 1 + k = i + (k + 1) by omega]; exact hk)
        (by omega)
      rw [hrec, show i + 1 + k = i + (k + 1) by omega]

/-- The bounded historical loop makes at most `t + 1` calls starting from
`n_tries = t`. -/
theorem implRetryGo_calls (responses : Nat → Nat) :
    ∀ (t i : Nat), (implRetryGo responses i t).1 ≤ i + t + 1 := by
  intro t
  induction t with
  | zero => intro i; simp [implRetryGo]
  | succ t ih =>
    intro i
    simp only [implRetryGo]
    by_cases h : responses i ≠ ERROR_BUFFER_OVERFLOW
    · rw [if_pos h]; omega
    · rw [if_neg h]
      have := ih (i + 1)
      omega

/-- C5 (counterexample): after 1000 consecutive buffer-too-small responses
the src/windows.rs retry loop has neither returned nor given up — it is not
bounded to a small fixed number of attempts. -/
theorem windows_buffer_retry_unbounded_cex :
    getAdapterAddressesFuel (fun _ => ERROR_BUFFER_OVERFLOW) 0 1000 = none :=
  gaaFuel_allOverflow 1000 0

/-- C5 (amended): the src/windows.rs `get_adapter_addresses` loop retries on
every buffer-too-small signal without an attempt bound, terminating exactly
when the kernel first reports anything else (success yields the buffer, any
other status becomes the error the caller maps to `StrategyError` or
`LocalIpAddressNotFound`); only the historical `impl_find_af_inet`
(src/windows/mod.rs) bounds the retries, making at most four kernel calls. -/
theorem windows_buffer_retry_amended :
    (∀ (responses : Nat → Nat) (k : Nat),
      (∀ j, j < k → responses j = ERROR_BUFFER_OVERFLOW) →
      responses k ≠ ERROR_BUFFER_OVERFLOW →
      ∀ fuel, k < fuel →
        getAdapterAddressesFuel responses 0 fuel =
          some (if responses k = ERROR_SUCCESS then .ok () else .error (responses k))) ∧
    (∀ responses : Nat → Nat, (implRetry responses).1 ≤ 4) := by
  constructor
  · intro responses k h hk fuel hf
    have hx := gaaFuel_first_exit responses k 0 fuel
      (fun j hj => by simpa using h j hj) (by simpa using hk) hf
    simpa using hx
  · intro responses
    have := implRetryGo_calls responses 3 0
    simpa [implRetry] using this

/-- Witness for C5: two overflows followed by success exit with the buffer
on the third call. -/
theorem windows_buffer_retry_amended_witness :
    getAdapterAddressesFuel (fun i => if i < 2 then ERROR_BUFFER_OVERFLOW else ERROR_SUCCESS) 0 3
      = some (.ok ()) := by
  have h := windows_buffer_retry_amended.1
    (fun i => if i < 2 then ERROR_BUFFER_OVERFLOW else ERROR_SUCCESS) 2
    (by decide) (by decide) 3 (by decide)
  simpa using h

/-! ## Claim C6 -/

/-- C6 (counterexample): with the routing table unavailable (`ERROR_NO_DATA`)
and an adapter holding the non-loopback address 192.168.1.2, the code
returns `LocalIpAddressNotFound` — it does not fall back to the first
non-loopback address, although one exists. -/
theorem windows_no_fallback_cex :
    windows_local_ip ⟨.error ERROR_NO_DATA, .ok [⟨5, [⟨some (.inet 192 168 1 2)⟩]⟩]⟩
      = .error .LocalIpAddressNotFound ∧
    spec_fallback_first_v4_non_loopback [⟨5, [⟨some (.inet 192 168 1 2)⟩]⟩]
      = some (.v4 ⟨192, 168, 1, 2⟩) :=
  ⟨rfl, rfl⟩

/-- C6 (amended): on Windows, `local_ip` returns the first address, in
enumeration order, belonging to an adapter whose interface index appears in
the default-route set and matching the requested family; when the
routing-table cross-reference is unavailable (`ERROR_NO_DATA` or
`ERROR_NOT_SUPPORTED`) it returns `LocalIpAddressNotFound` — there is no
fallback to the first non-loopback address. -/
theorem windows_local_ip_selection_amended :
    (∀ (st : WinState) (rows : List ForwardRow) (adapters : List Adapter)
        (l1 : List IpAddr) (ip : IpAddr) (l2 : List IpAddr),
      st.forwardTable = .ok rows → st.adapters = .ok adapters →
      collectDefaultRouteIps rows adapters = l1 ++ ip :: l2 →
      ip.isV4 = true → (∀ j ∈ l1, j.isV4 = false) →
      windows_local_ip st = .ok ip) ∧
    (∀ (st : WinState) (rows : List ForwardRow) (adapters : List Adapter),
      st.forwardTable = .ok rows → st.adapters = .ok adapters →
      (∀ j ∈ collectDefaultRouteIps rows adapters, j.isV4 = false) →
      windows_local_ip st = .error .LocalIpAddressNotFound) ∧
    (∀ (st : WinState) (ec : Nat), st.forwardTable = .error ec →
      (ec = ERROR_NO_DATA ∨ ec = ERROR_NOT_SUPPORTED) →
      windows_local_ip st = .error .LocalIpAddressNotFound) := by
  refine ⟨?_, ?_, ?_⟩
  · intro st rows adapters l1 ip l2 hft had hcoll hip hnone
    have h := find_first IpAddr.isV4 l1 ip l2 hnone hip
    simp only [windows_local_ip, list_local_ip_addresses, hft, had, hcoll, h]
  · intro st rows adapters hft had hnone
    have h := find_none IpAddr.isV4 (collectDefaultRouteIps rows adapters) hnone
    simp only [windows_local_ip, list_local_ip_addresses, hft, had, h]
  · intro st ec hft hec
    simp only [windows_local_ip, list_local_ip_addresses, hft, if_pos hec]

/-- Witness for C6: a default route on interface 7 whose adapter holds an
IPv6 then an IPv4 address selects the IPv4 one; interface 9's adapter is not
in the default-route set. -/
theorem windows_local_ip_selection_amended_witness :
    windows_local_ip ⟨.ok [⟨0, 7⟩, ⟨1, 9⟩],
        .ok [⟨7, [⟨some (.inet6 (List.replicate 16 0))⟩, ⟨some (.inet 10 0 0 1)⟩]⟩]⟩
      = .ok (.v4 ⟨10, 0, 0, 1⟩) :=
  windows_local_ip_selection_amended.1
    ⟨.ok [⟨0, 7⟩, ⟨1, 9⟩],
      .ok [⟨7, [⟨some (.inet6 (List.replicate 16 0))⟩, ⟨some (.inet 10 0 0 1)⟩]⟩]⟩
    [⟨0, 7⟩, ⟨1, 9⟩] [⟨7, [⟨some (.inet6 (List.replicate 16 0))⟩, ⟨some (.inet 10 0 0 1)⟩]⟩]
    [.v6 (List.replicate 16 0)] (.v4 ⟨10, 0, 0, 1⟩) []
    rfl rfl (by decide) (by decide) (by decide)

/-! ## Claim C7 -/

/-- C7 (counterexample): an interface name that fails text decoding is
reported as `StrategyError`, not as a distinct `InvalidName` kind — no such
kind exists in the error enum. -/
theorem invalid_name_reported_as_strategy_cex :
    get_ifa_name [255] = .error (.StrategyError nameErrMsg) ∧
    (Error.StrategyError nameErrMsg).kind = .strategy :=
  ⟨rfl, rfl⟩

/-- C7 (amended): the error taxonomy is a closed set of exactly three kinds
— `LocalIpAddressNotFound`, `StrategyError` carrying diagnostic text, and
`PlatformNotSupported` carrying the OS name; an interface name that fails
text decoding is reported as `StrategyError`. -/
theorem error_taxonomy_amended :
    (∀ er : Error,
      er.kind = .notFound ∨ er.kind = .strategy ∨ er.kind = .platformNotSupported) ∧
    (∀ name : List Nat, isValidUtf8 name = false →
      get_ifa_name name = .error (.StrategyError nameErrMsg)) := by
  constructor
  · intro er
    cases er with
    | LocalIpAddressNotFound => exact Or.inl rfl
    | StrategyError m => exact Or.inr (Or.inl rfl)
    | PlatformNotSupported o => exact Or.inr (Or.inr rfl)
  · intro name h
    simp [get_ifa_name, h]

/-- Witness for C7 at the invalid byte 0xFF. -/
theorem error_taxonomy_amended_witness :
    isValidUtf8 [255] = false ∧ get_ifa_name [255] = .error (.StrategyError nameErrMsg) :=
  ⟨by decide, error_taxonomy_amended.2 [255] (by decide)⟩

/-! ## Claim C8 -/

/-- The inner walk fails with the name-decoding `StrategyError` whenever
some node of a decoded family (no node having a null address pointer, which
would crash first) carries invalid name bytes. -/
theorem walkNodes_err_of_invalid_name (e : Endianness) :
    ∀ nodes : List IfaddrsNode,
      (∀ n ∈ nodes, n.ifa_addr ≠ none) →
      (∃ n ∈ nodes, isInetNode n = true ∧ isValidUtf8 n.ifa_name = false) →
      walkNodes e nodes = .err (.StrategyError nameErrMsg) := by
  intro nodes
  induction nodes with
  | nil => intro _ hex; simp at hex
  | cons n rest ih =>
    intro hnn hex
    obtain ⟨sa, hsa⟩ : ∃ sa, n.ifa_addr = some sa := by
      cases h : n.ifa_addr with
      | none => exact absurd h (hnn n (by simp))
      | some sa => exact ⟨sa, rfl⟩
    have hex' : isValidUtf8 n.ifa_name = false ∨
        ∃ m ∈ rest, isInetNode m = true ∧ isValidUtf8 m.ifa_name = false := by
      obtain ⟨m, hm, hmi, hmv⟩ := hex
      rcases List.mem_cons.mp hm with h | h
      · subst h; exact Or.inl hmv
      · exact Or.inr ⟨m, h, hmi, hmv⟩
    have htail : (∃ m ∈ rest, isInetNode m = true ∧ isValidUtf8 m.ifa_name = false) →
        walkNodes e rest = .err (.StrategyError nameErrMsg) :=
      fun hx => ih (fun m hm => hnn m (by simp [hm])) hx
    cases sa with
    | inet b0 b1 b2 b3 =>
      by_cases hv : isValidUtf8 n.ifa_name = true
      · have hx := hex'.resolve_left (by simp [hv])
        simp [walkNodes, hsa, get_ifa_name, hv, htail hx]
      · simp [walkNodes, hsa, get_ifa_name, hv]
    | inet6 bytes =>
      by_cases hv : isValidUtf8 n.ifa_name = true
      · have hx := hex'.resolve_left (by simp [hv])
        simp [walkNodes, hsa, get_ifa_name, hv, htail hx]
      · simp [walkNodes, hsa, get_ifa_name, hv]
    | otherFamily f =>
      have hx : ∃ m ∈ rest, isInetNode m = true ∧ isValidUtf8 m.ifa_name = false := by
        obtain ⟨m, hm, hmi, hmv⟩ := hex
        rcases List.mem_cons.mp hm with h | h
        · subst h; simp [isInetNode, hsa] at hmi
        · exact ⟨m, h, hmi, hmv⟩
      simp [walkNodes, hsa, htail hx]

/-- C8 (counterexample): a record of a non-decoded family (here `AF_PACKET`,
17) whose name bytes are not valid text is silently skipped — the
enumeration still succeeds with a list, so not every run containing an
invalid name fails. -/
theorem invalid_name_skipped_record_cex :
    isValidUtf8 [255] = false ∧
    walkIfaddrs .little [⟨some (.otherFamily 17), 0, [255]⟩,
      ⟨some (.inet 192 168 1 7), 0, [101, 110, 48]⟩]
      = .ok [⟨.v4 ⟨192, 168, 1, 7⟩, [101, 110, 48], false⟩] := by
  decide

/-- C8 (amended): whenever some record of a decoded family (`AF_INET` or
`AF_INET6`) has name bytes that are not valid text — and no record has a
null address pointer, which would crash the walk first — the whole
enumeration fails with the recoverable name-decoding `StrategyError`: no
partial interface list is returned and the record is not silently
skipped. -/
theorem invalid_name_aborts_enumeration_amended :
    ∀ (e : Endianness) (nodes : List IfaddrsNode),
      (∀ n ∈ nodes, n.ifa_addr ≠ none) →
      (∃ n ∈ nodes, isInetNode n = true ∧ isValidUtf8 n.ifa_name = false) →
      walkIfaddrs e nodes = .err (.StrategyError nameErrMsg) := by
  intro e nodes hnn hex
  have h := walkNodes_err_of_invalid_name e nodes hnn hex
  cases nodes with
  | nil => simp at hex
  | cons a l => simpa [walkIfaddrs] using h

/-- Witness for C8: a single `AF_INET` record with the invalid name byte
0xFF aborts the enumeration. -/
theorem invalid_name_aborts_enumeration_amended_witness :
    walkIfaddrs .little [⟨some (.inet 1 2 3 4), 0, [255]⟩]
      = .err (.StrategyError nameErrMsg) :=
  invalid_name_aborts_enumeration_amended .little [⟨some (.inet 1 2 3 4), 0, [255]⟩]
    (by decide) (by decide)

/-! ## Claim C9 -/

/-- C9 (counterexample): on bytes ending in a null but containing another
null ("eth0\x5C0\x5C0"), the parser does not strip exactly one trailing null —
`CStr::from_bytes_with_nul` rejects the interior null and the parser
errors. -/
theorem parse_ifname_double_nul_cex :
    parse_ifname [101, 116, 104, 48, 0, 0] = .error (.StrategyError cstrNulErrMsg) := rfl

/-- C9 (amended): the interface-name parser returns the exact text for a
valid byte sequence without a trailing null terminator, strips exactly one
trailing null terminator when one is present and no interior null remains
(otherwise it errors), and returns the empty string for a single null
byte. -/
theorem parse_ifname_amended :
    (∀ bytes : List Nat, isValidUtf8 bytes = true → bytes.getLast? ≠ some 0 →
      parse_ifname bytes = .ok bytes) ∧
    (∀ bytes : List Nat, isValidUtf8 bytes = true → (0 : Nat) ∉ bytes →
      parse_ifname (bytes ++ [0]) = .ok bytes) ∧
    parse_ifname [0] = .ok [] := by
  refine ⟨?_, ?_, rfl⟩
  · intro bytes hv hl
    simp only [parse_ifname, if_neg hl]
    rw [utf8Lossy_of_valid hv]
  · intro bytes hv hm
    have h1 : (bytes ++ [0]).getLast? = some 0 := by simp
    have h2 : (bytes ++ [0]).dropLast = bytes := by simp
    have h3 : bytes.contains 0 = false := by simpa using hm
    simp [parse_ifname, h1, h2, h3, utf8Lossy_of_valid hv, hm]

/-- Witness for C9: "eth0" plus one trailing null parses to "eth0". -/
theorem parse_ifname_amended_witness :
    isValidUtf8 [101, 116, 104, 48] = true ∧
    parse_ifname [101, 116, 104, 48, 0] = .ok [101, 116, 104, 48] :=
  ⟨by decide, by
    have h := parse_ifname_amended.2.1 [101, 116, 104, 48] (by decide) (by decide)
    simpa using h⟩

/-! ## Claim C10 -/

/-- A hit of `firstIfaLocal` is a member attribute of type `Ifa::Local`. -/
theorem firstIfaLocal_mem :
    ∀ (attrs : List (IfaTy × List Nat)) (bytes : List Nat),
      firstIfaLocal attrs = some bytes →
      ∃ pr ∈ attrs, pr.1 = IfaTy.ifaLocal ∧ pr.2 = bytes := by
  intro attrs
  induction attrs with
  | nil => intro bytes h; simp [firstIfaLocal, List.findSome?] at h
  | cons a rest ih =>
    intro bytes h
    simp only [firstIfaLocal, List.findSome?] at h
    by_cases ha : a.1 = IfaTy.ifaLocal
    · rw [if_pos ha] at h
      exact ⟨a, by simp, ha, by simpa using h⟩
    · rw [if_neg ha] at h
      obtain ⟨pr, hmem, h1, h2⟩ := ih bytes h
      exact ⟨pr, by simp [hmem], h1, h2⟩

/-- A payload that passes the length check deserializes to an address. -/
theorem attrDecodes_some (e : Endianness) :
    ∀ (family : RtFamily) (bytes : List Nat), attrDecodes family bytes = true →
      ∃ ip, decodeAttr e family bytes = some ip := by
  intro family bytes h
  cases family with
  | inet =>
    have hlen : bytes.length = 4 := by simpa [attrDecodes] using h
    rcases bytes with _ | ⟨b0, _ | ⟨b1, _ | ⟨b2, _ | ⟨b3, _ | ⟨b4, t⟩⟩⟩⟩⟩ <;>
        simp only [List.length_cons, List.length_nil] at hlen <;>
      first
        | exact ⟨_, rfl⟩
        | omega
  | inet6 =>
    have hlen : bytes.length = 16 := by simpa [attrDecodes] using h
    exact ⟨.v6 (ipv6FromU128 (u128FromBe e (readNativeU128 e bytes))),
      by simp [decodeAttr, decodeAttrV6, hlen]⟩
  | otherFam n => simp [attrDecodes] at h

/-- On a well-formed address dump, the loop of the second phase computes
exactly the first universe-scope local-address attribute, or
`LocalIpAddressNotFound` when none exists. -/
theorem runPhase2_eq_firstLocalAddr (e : Endianness) (family : RtFamily) :
    ∀ resps : List (NlResp Ifaddrmsg), wellFormed2 family resps = true →
      runPhase2 e family resps =
        (match firstLocalAddr e family resps with
         | some ip => Except.ok ip
         | none => Except.error Error.LocalIpAddressNotFound) := by
  intro resps
  induction resps with
  | nil => intro _; rfl
  | cons r rest ih =>
    intro hwf
    simp only [wellFormed2, List.all_cons, Bool.and_eq_true] at hwf
    obtain ⟨hhead, hrest⟩ := hwf
    have ihr := ih hrest
    cases r with
    | sockErr b => simp at hhead
    | msg ty pl =>
      cases pl with
      | empty =>
        have hty : ty = .newaddr := by simpa using hhead
        subst hty
        simpa [runPhase2, firstLocalAddr, List.findSome?] using ihr
      | payload p =>
        simp only [Bool.and_eq_true, beq_iff_eq, Bool.or_eq_true, bne_iff_ne,
          List.all_eq_true] at hhead
        obtain ⟨⟨hty, hfam⟩, hscope⟩ := hhead
        subst hty
        by_cases hs : p.ifa_scope = 0
        · have hall : ∀ a ∈ p.rtattrs,
              (!(a.1 == IfaTy.ifaLocal)) = true ∨ attrDecodes family a.2 = true := by
            rcases hscope with h | h
            · exact absurd hs h
            · exact h
          cases hfl : firstIfaLocal p.rtattrs with
          | none =>
            simpa [runPhase2, hs, hfam, hfl, firstLocalAddr, List.findSome?] using ihr
          | some bytes =>
            obtain ⟨pr, hmem, hpr1, hpr2⟩ := firstIfaLocal_mem p.rtattrs bytes hfl
            have hdec : attrDecodes family bytes = true := by
              rcases hall pr hmem with hbad | hgood
              · rw [hpr1] at hbad; simp at hbad
              · rwa [hpr2] at hgood
            obtain ⟨ip, hip⟩ := attrDecodes_some e family bytes hdec
            simp [runPhase2, hs, hfam, hfl, hip, firstLocalAddr, List.findSome?]
        · simpa [runPhase2, hs, firstLocalAddr, List.findSome?] using ihr

/-- C10: on Linux, when the route lookup exhausts its responses without a
preferred-source attribute, `local_ip`/`local_ipv6` do not report NotFound
immediately: they run the address dump and return its first universe-scope
local-address attribute of the requested family, reporting
`LocalIpAddressNotFound` only when that dump yields no such address. -/
theorem linux_local_ip_address_dump_fallback :
    (∀ (e : Endianness) (family : RtFamily) (r1 : List (NlResp Rtmsg))
        (r2 : List (NlResp Ifaddrmsg)),
      (family = .inet ∨ family = .inet6) →
      runPhase1 e family r1 = .exhausted →
      local_ip_impl e family r1 r2 = runPhase2 e family r2) ∧
    (∀ (e : Endianness) (family : RtFamily) (r2 : List (NlResp Ifaddrmsg)),
      wellFormed2 family r2 = true →
      runPhase2 e family r2 =
        (match firstLocalAddr e family r2 with
         | some ip => Except.ok ip
         | none => Except.error Error.LocalIpAddressNotFound)) := by
  constructor
  · intro e family r1 r2 hfam h1
    rcases hfam with rfl | rfl <;> simp [local_ip_impl, h1]
  · intro e family r2 h
    exact runPhase2_eq_firstLocalAddr e family r2 h

/-- Witness for C10: an exhausted route lookup followed by a one-message
dump carrying `Ifa::Local` 10.0.0.1 returns that address. -/
theorem linux_local_ip_address_dump_fallback_witness :
    runPhase1 .little .inet [] = .exhausted ∧
    wellFormed2 .inet [.msg .newaddr (.payload ⟨0, .inet, 3, [(.ifaLocal, [10, 0, 0, 1])]⟩)]
      = true ∧
    local_ip_impl .little .inet []
      [.msg .newaddr (.payload ⟨0, .inet, 3, [(.ifaLocal, [10, 0, 0, 1])]⟩)]
      = .ok (.v4 ⟨10, 0, 0, 1⟩) := by
  refine ⟨rfl, by decide, ?_⟩
  have h1 := linux_local_ip_address_dump_fallback.1 .little .inet []
    [.msg .newaddr (.payload ⟨0, .inet, 3, [(.ifaLocal, [10, 0, 0, 1])]⟩)] (Or.inl rfl) rfl
  have h2 := linux_local_ip_address_dump_fallback.2 .little .inet
    [.msg .newaddr (.payload ⟨0, .inet, 3, [(.ifaLocal, [10, 0, 0, 1])]⟩)] (by decide)
  rw [h1, h2]
  rfl

end LocalIp
